import Mathlib

/-!
Shallow embedding of `src/combine_files.py` (the current variant of the
`combine_files` script): POSIX path helpers, `fnmatch`-style shell wildcard
matching, file discovery (`os.walk` + `glob`), exclusion filtering, and the
merge loop, together with theorems checking the specification's claims.

All string operations are implemented structurally over `String.data` so
that every definition evaluates inside the kernel.
-/

namespace CombineFiles

/-! ### Structural string helpers -/

/-- Does `pre` occur at the start of `l`? (`str.startswith`, on char lists). -/
def startsWithL : List Char → List Char → Bool
  | _, [] => true
  | [], _ :: _ => false
  | c :: l, p :: ps => c == p && startsWithL l ps

/-- `str.startswith`. -/
def strStarts (s pre : String) : Bool :=
  startsWithL s.data pre.data

/-- `str.endswith`. -/
def strEnds (s suf : String) : Bool :=
  startsWithL s.data.reverse suf.data.reverse

/-- `c in s` for a single character. -/
def strHasChar (s : String) (c : Char) : Bool :=
  s.data.any (· == c)

/-- `str.split(sep)` on char lists: always at least one (possibly empty)
segment. -/
def chSplit (sep : Char) : List Char → List (List Char)
  | [] => [[]]
  | c :: rest =>
    match chSplit sep rest with
    | [] => [[]]
    | seg :: segs => if c == sep then [] :: seg :: segs else (c :: seg) :: segs

/-- `str.split(sep)`. -/
def strSplit (s : String) (sep : Char) : List String :=
  (chSplit sep s.data).map String.mk

/-- `sep.join(l)`. -/
def strJoin (sep : String) : List String → String
  | [] => ""
  | [x] => x
  | x :: y :: rest => x ++ sep ++ strJoin sep (y :: rest)

/-! ### POSIX path helpers (`os.path`) -/

/-- POSIX `os.path.join` for two components: an absolute second component
replaces the first; otherwise the parts are joined with `/` unless the first
part is empty or already ends with `/`. -/
def joinPath (a b : String) : String :=
  if strStarts b "/" then b
  else if a = "" ∨ strEnds a "/" then a ++ b
  else a ++ "/" ++ b

/-- POSIX `os.path.basename`: everything after the last `/`. -/
def basename (p : String) : String :=
  (strSplit p '/').getLastD ""

/-- POSIX `os.path.normpath`: collapse repeated separators, drop `.`
components, resolve `..` components textually, keep up to two leading
slashes. -/
def normpath (p : String) : String :=
  if p = "" then "." else
  let slashes : Nat :=
    if strStarts p "//" && !strStarts p "///" then 2
    else if strStarts p "/" then 1 else 0
  let comps := strSplit p '/'
  let newComps := comps.foldl
    (fun acc comp =>
      if comp = "" ∨ comp = "." then acc
      else if comp ≠ ".." ∨ (slashes = 0 ∧ acc = []) ∨ acc.getLast? = some ".." then
        acc ++ [comp]
      else if acc ≠ [] then acc.dropLast
      else acc)
    []
  let result := String.mk (List.replicate slashes '/') ++ strJoin "/" newComps
  if result = "" then "." else result

/-- A path segment is hidden when it starts with `.` and is neither the `.`
nor the `..` pseudo-segment (the `f_path.split(os.path.sep)` check in the
glob branch of the script). -/
def hasHiddenSeg (f : String) : Bool :=
  (strSplit f '/').any fun seg => strStarts seg "." && seg != "." && seg != ".."

/-! ### `fnmatch` shell-wildcard matching

Mirrors CPython `fnmatch.translate` on POSIX (`normcase` is the identity):
`*` matches any run of characters, `?` any single character, `[...]` a
character set with `!` negation and `a-b` ranges; an unterminated `[` is a
literal. -/

/-- One member of a `[...]` character set: a literal character or a range. -/
inductive ClsItem where
  | ch (c : Char)
  | rng (a b : Char)
deriving DecidableEq

/-- One token of a translated wildcard pattern. -/
inductive GlobTok where
  | lit (c : Char)
  | anyOne
  | star
  | set (neg : Bool) (items : List ClsItem)
deriving DecidableEq

/-- Scan the body of a `[...]` set up to the closing `]`; `none` when the
set is unterminated. -/
def scanClsBody : List Char → Option (List Char × List Char)
  | [] => none
  | ']' :: rest => some ([], rest)
  | c :: rest =>
    match scanClsBody rest with
    | none => none
    | some (st, r) => some (c :: st, r)

/-- Scan a `[...]` set, skipping a leading `!` and a leading `]` the way
CPython `fnmatch.translate` does before searching for the closing `]`. -/
def scanCls (l : List Char) : Option (List Char × List Char) :=
  match l with
  | '!' :: ']' :: rest => (scanClsBody rest).map fun x => ('!' :: ']' :: x.1, x.2)
  | '!' :: rest => (scanClsBody rest).map fun x => ('!' :: x.1, x.2)
  | ']' :: rest => (scanClsBody rest).map fun x => (']' :: x.1, x.2)
  | l => scanClsBody l

/-- Parse set members, recognising `a-b` ranges (a `-` at either end is a
literal). -/
def parseItems : List Char → List ClsItem
  | [] => []
  | a :: '-' :: b :: rest => .rng a b :: parseItems rest
  | a :: rest => .ch a :: parseItems rest

/-- Parse the scanned body of a set: a leading `!` negates. -/
def parseCls (stuff : List Char) : GlobTok :=
  match stuff with
  | '!' :: rest => .set true (parseItems rest)
  | _ => .set false (parseItems stuff)

/-- `fnmatch.translate`, producing tokens instead of a regex.  Fuel-indexed
so that it evaluates by kernel reduction; every step consumes at least one
character, so fuel equal to the pattern length is always enough. -/
def translateF : Nat → List Char → List GlobTok
  | 0, _ => []
  | fuel + 1, l =>
    match l with
    | [] => []
    | '*' :: rest => .star :: translateF fuel rest
    | '?' :: rest => .anyOne :: translateF fuel rest
    | '[' :: rest =>
      match scanCls rest with
      | none => .lit '[' :: translateF fuel rest
      | some (stuff, rest2) => parseCls stuff :: translateF fuel rest2
    | c :: rest => .lit c :: translateF fuel rest

/-- Translate a wildcard pattern. -/
def translatePat (l : List Char) : List GlobTok :=
  translateF l.length l

/-- Does one set member match a character? Ranges compare code points. -/
def clsItemMatch (c : Char) : ClsItem → Bool
  | .ch a => a == c
  | .rng a b => decide (a ≤ c) && decide (c ≤ b)

/-- Does a (possibly negated) set match a character? -/
def clsMatch (neg : Bool) (items : List ClsItem) (c : Char) : Bool :=
  let m := items.any (clsItemMatch c)
  if neg then !m else m

/-- Token-list wildcard matching (backtracking for `*`).  Fuel-indexed so
that it evaluates by kernel reduction; every recursive call decreases
`p.length + s.length`, so that sum is always enough fuel. -/
def tokMatchF : Nat → List GlobTok → List Char → Bool
  | _, [], s => s.isEmpty
  | 0, _ :: _, _ => false
  | fuel + 1, .star :: p, s =>
    tokMatchF fuel p s ||
      (match s with
       | [] => false
       | _ :: s2 => tokMatchF fuel (.star :: p) s2)
  | fuel + 1, .anyOne :: p, s =>
    match s with
    | [] => false
    | _ :: s2 => tokMatchF fuel p s2
  | fuel + 1, .lit a :: p, s =>
    match s with
    | [] => false
    | c :: s2 => a == c && tokMatchF fuel p s2
  | fuel + 1, .set neg items :: p, s =>
    match s with
    | [] => false
    | c :: s2 => clsMatch neg items c && tokMatchF fuel p s2

/-- `fnmatch.fnmatch` on POSIX. -/
def fnmatch (name pat : String) : Bool :=
  let toks := translatePat pat.data
  tokMatchF (toks.length + name.data.length) toks name.data

/-! ### Lexicographic string order (Python `list.sort()` on `str`)

Python compares strings code point by code point, a strict prefix being
smaller.  Implemented as a boolean comparator so that it evaluates inside
the kernel. -/

/-- Strict code-point lexicographic order on char lists. -/
def lexLt : List Char → List Char → Bool
  | [], [] => false
  | [], _ :: _ => true
  | _ :: _, [] => false
  | a :: as, b :: bs =>
    if a.toNat < b.toNat then true
    else if b.toNat < a.toNat then false
    else lexLt as bs

/-- Non-strict code-point lexicographic order on strings. -/
def strLe (a b : String) : Bool :=
  !lexLt b.data a.data

/-- `strLe` as a relation, for `List.insertionSort` and `List.Sorted`. -/
def StrOrd (a b : String) : Prop :=
  strLe a b = true

instance : DecidableRel StrOrd := fun _ _ => instDecidableEqBool _ _

/-! ### Filesystem model

The script only observes the filesystem through `os.path.isdir`, `os.walk`
(backed by directory listings), `glob.glob`, `os.path.isfile`,
`os.path.abspath`, opening the output for writing, per-call writes to the
output handle, and opening/reading each source file.  Those observations are
the fields of `FS`; `maxDepth` bounds the depth of the directory tree so the
recursive walk terminates (real directory trees are finite). -/

/-- One entry of a directory listing. -/
structure DirEntry where
  name : String
  isDir : Bool
deriving DecidableEq

/-- The kind of an output-handle write performed for one file of the merge
loop: the `\n\n` separator, the `--- path ---` header, the file content, or
the inline error marker written by the per-file `except` handler. -/
inductive WKind where
  | sep
  | header
  | content
  | marker
deriving DecidableEq

/-- The filesystem/IO oracle for one run. `writeError k i` is the error the
write of kind `k` for the file at sorted index `i` raises (`none` when it
succeeds); `openOutputError` likewise for opening the output file. -/
structure FS where
  isdir : String → Bool
  listdir : String → List DirEntry
  globMatches : String → List String
  isfile : String → Bool
  readFile : String → Except String String
  abspath : String → String
  openOutputError : Option String
  writeError : WKind → Nat → Option String
  maxDepth : Nat

/-! ### Step 1: discovery -/

/-- `os.walk(path, topdown=True)` restricted to the files it yields, with the
script's hidden-entry pruning: when `include_hidden` is false, hidden
directory names are removed from `dirnames` (so the walk does not descend
into them) and hidden file names are dropped from `filenames`. -/
def walkFiles (fs : FS) (includeHidden : Bool) : Nat → String → List String
  | 0, _ => []
  | fuel + 1, dirpath =>
    let entries := fs.listdir dirpath
    let dirnames0 := (entries.filter (·.isDir)).map (·.name)
    let filenames0 := (entries.filter (fun e => !e.isDir)).map (·.name)
    let dirnames := if includeHidden then dirnames0
      else dirnames0.filter (fun d => !strStarts d ".")
    let filenames := if includeHidden then filenames0
      else filenames0.filter (fun f => !strStarts f ".")
    filenames.map (fun f => joinPath dirpath f) ++
      dirnames.flatMap (fun d => walkFiles fs includeHidden fuel (joinPath dirpath d))

/-- `candidate_files.add(f)` on the set of candidates, represented as the
duplicate-free list of elements in insertion order. -/
def addCandidate (s : List String) (f : String) : List String :=
  if f ∈ s then s else s ++ [f]

/-- The warning printed when a non-directory input specification without `*`
or `?` matches nothing. -/
def warnMsg (path : String) : String :=
  "警告：路径 '" ++ path ++ "' 没有匹配到任何文件或目录。"

/-- Process one input path specification: directory walk when the path names
a directory, otherwise glob expansion with the zero-match warning, keeping
regular files and (unless `include_hidden`) dropping paths with a hidden
segment. Threads the candidate set and the warnings printed so far. -/
def discoverStep (fs : FS) (includeHidden : Bool)
    (acc : List String × List String) (path : String) : List String × List String :=
  if fs.isdir path then
    ((walkFiles fs includeHidden fs.maxDepth path).foldl addCandidate acc.1, acc.2)
  else
    let matched := fs.globMatches path
    let warns :=
      if matched.isEmpty && !strHasChar path '*' && !strHasChar path '?' then
        acc.2 ++ [warnMsg path]
      else acc.2
    let cands := matched.foldl
      (fun c fp =>
        if fs.isfile fp then
          if !includeHidden && hasHiddenSeg fp then c else addCandidate c fp
        else c)
      acc.1
    (cands, warns)

/-- Step 1 of the script: find all candidate files, returning the candidate
set (as a duplicate-free list) and the warnings printed. -/
def discover (fs : FS) (includeHidden : Bool) (inputPaths : List String) :
    List String × List String :=
  inputPaths.foldl (discoverStep fs includeHidden) ([], [])

/-! ### Step 2: exclusion filtering -/

/-- Is candidate `f` excluded by pattern `pattern`?  The script checks
`fnmatch` of the base name, `fnmatch` of the full path, and the
directory-prefix rule for patterns ending in the path separator (on POSIX,
`os.path.sep` and `'/'` coincide). -/
def excludeMatch (f pattern : String) : Bool :=
  fnmatch (basename f) pattern || fnmatch f pattern ||
    (strEnds pattern "/" && strStarts (normpath f) (normpath pattern ++ "/"))

/-- Step 2 of the script: keep the candidates matching no exclusion pattern
(identity when no patterns were supplied). -/
def filterFiles (excludePatterns : List String) (candidates : List String) : List String :=
  if excludePatterns.isEmpty then candidates
  else candidates.filter fun f => !(excludePatterns.any (excludeMatch f))

/-! ### Step 3: sort and merge -/

/-- The inline error marker / console message for a per-file error. -/
def errMsg (filepath e : String) : String :=
  "\n错误：读取文件 '" ++ filepath ++ "' 时发生错误: " ++ e ++ "\n"

/-- The console message for a failed output-file write. -/
def outErrMsg (outputFile e : String) : String :=
  "错误：无法写入到输出文件 '" ++ outputFile ++ "': " ++ e

/-- The fatal message when filtering leaves no files. -/
def emptyMsg : String :=
  "错误：经过滤后，没有找到任何要合并的文件。脚本已退出。"

/-- The header line written before a file's content. -/
def headerLine (useAbs : Bool) (fs : FS) (filepath : String) : String :=
  "--- " ++ (if useAbs then fs.abspath filepath else filepath) ++ " ---\n"

/-- Result of the merge loop: either an uncaught write error (propagating to
the outer `except IOError`) with the content written so far, or the complete
output; both carry the per-file error messages printed. -/
inductive MergeRes where
  | abort (written msg : String) (console : List String)
  | done (output : String) (console : List String)
deriving DecidableEq

/-- One `outfile.write` call: raises `writeError k i` or appends `text`. -/
def writeStep (fs : FS) (k : WKind) (i : Nat) (acc text : String) : Except String String :=
  match fs.writeError k i with
  | some e => .error e
  | none => .ok (acc ++ text)

/-- One iteration of the merge loop for the file at sorted index `i`: the
separator (after the first file), the header, then — inside the per-file
`try` — opening/reading the source and writing its content; any error from
that `try` body is caught locally, printed, and written as an inline
marker.  Errors from the separator, header, or marker writes escape to the
outer handler (`abort`). -/
def mergeFile (fs : FS) (useAbs : Bool) (filepath : String) (i : Nat)
    (acc : String) (console : List String) : MergeRes :=
  match (if i > 0 then writeStep fs .sep i acc "\n\n" else .ok acc) with
  | .error e => .abort acc e console
  | .ok acc1 =>
    match writeStep fs .header i acc1 (headerLine useAbs fs filepath) with
    | .error e => .abort acc1 e console
    | .ok acc2 =>
      match fs.readFile filepath with
      | .ok content =>
        match writeStep fs .content i acc2 content with
        | .ok acc3 => .done acc3 console
        | .error e =>
          match writeStep fs .marker i acc2 (errMsg filepath e) with
          | .error e2 => .abort acc2 e2 (console ++ [errMsg filepath e])
          | .ok acc3 => .done acc3 (console ++ [errMsg filepath e])
      | .error e =>
        match writeStep fs .marker i acc2 (errMsg filepath e) with
        | .error e2 => .abort acc2 e2 (console ++ [errMsg filepath e])
        | .ok acc3 => .done acc3 (console ++ [errMsg filepath e])

/-- The body of the `with open(output_file, ...)` block: `mergeFile` for
each file in order; the first uncaught write error aborts the loop. -/
def mergeLoop (fs : FS) (useAbs : Bool) :
    List String → Nat → String → List String → MergeRes
  | [], _, acc, console => .done acc console
  | filepath :: rest, i, acc, console =>
    match mergeFile fs useAbs filepath i acc console with
    | .abort written e console2 => .abort written e console2
    | .done acc2 console2 => mergeLoop fs useAbs rest (i + 1) acc2 console2

/-- Observable outcome of a run: the exit classification together with what
ends up in the output file. -/
inductive Outcome where
  | emptyError
  | openError (msg : String)
  | writeAbort (written msg : String)
  | success (output : String)
deriving DecidableEq

/-- Process exit code: `0` only for a completed merge. -/
def Outcome.exitCode : Outcome → Nat
  | .success _ => 0
  | _ => 1

/-- Was the output file created or modified?  `sys.exit(1)` on an empty
filtered set happens before the output is opened, and a failed
`open(output_file, 'w')` does not create or truncate the file; every other
outcome has opened (hence truncated/created) the output. -/
def Outcome.outputTouched : Outcome → Bool
  | .emptyError => false
  | .openError _ => false
  | _ => true

/-- The candidate set of a run. -/
def candidateFiles (fs : FS) (includeHidden : Bool) (inputPaths : List String) : List String :=
  (discover fs includeHidden inputPaths).1

/-- The surviving files of a run, before sorting. -/
def filesToProcess (fs : FS) (includeHidden : Bool)
    (inputPaths excludePatterns : List String) : List String :=
  filterFiles excludePatterns (candidateFiles fs includeHidden inputPaths)

/-- The surviving files of a run in merge order (`files_to_process.sort()`,
lexicographic by code point). -/
def processedFiles (fs : FS) (includeHidden : Bool)
    (inputPaths excludePatterns : List String) : List String :=
  List.insertionSort StrOrd (filesToProcess fs includeHidden inputPaths excludePatterns)

/-- The whole `combine_files` function: discovery, filtering, the empty-set
fatal exit, sorting, and the merge under the outer `except IOError` handler.
Returns the outcome and the warning/error messages printed. -/
def combineFiles (fs : FS) (outputFile : String) (inputPaths excludePatterns : List String)
    (useAbsolutePaths includeHidden : Bool) : Outcome × List String :=
  let disc := discover fs includeHidden inputPaths
  let files := filterFiles excludePatterns disc.1
  if files.isEmpty then
    (.emptyError, disc.2 ++ [emptyMsg])
  else
    let sorted := List.insertionSort StrOrd files
    match fs.openOutputError with
    | some e => (.openError e, disc.2 ++ [outErrMsg outputFile e])
    | none =>
      match mergeLoop fs useAbsolutePaths sorted 0 "" [] with
      | .abort written e console =>
        (.writeAbort written e, disc.2 ++ console ++ [outErrMsg outputFile e])
      | .done out console => (.success out, disc.2 ++ console)

/-! ### Concrete filesystems for scenario checks and witnesses -/

/-- The spec's scenario filesystem: directory `proj` holding `b.txt`,
`a.txt`, and hidden subdirectory `.hidden` holding `c.txt` (listing order
deliberately not sorted). -/
def fsProj : FS where
  isdir := fun p => p == "proj"
  listdir := fun p =>
    if p == "proj" then [⟨"b.txt", false⟩, ⟨"a.txt", false⟩, ⟨".hidden", true⟩]
    else if p == "proj/.hidden" then [⟨"c.txt", false⟩]
    else []
  globMatches := fun _ => []
  isfile := fun _ => false
  readFile := fun p =>
    if p == "proj/a.txt" then .ok "A"
    else if p == "proj/b.txt" then .ok "B"
    else if p == "proj/.hidden/c.txt" then .ok "C"
    else .error "missing"
  abspath := fun p => "/abs/" ++ p
  openOutputError := none
  writeError := fun _ _ => none
  maxDepth := 3

/-! ### What the merge writes

`fileBody fs f i` is what ends up after the header of the file at sorted
index `i` (its content, or the inline error marker); `filePrint` is what the
per-file handler prints.  `renderFrom`/`printsFrom` accumulate these over
the remaining files, and `sepJoin` is the final output shape: blocks joined
by the blank-line separator, nothing before the first block and nothing
after the last. -/

/-- Output-file text produced after the header of the file at index `i`,
assuming the marker write succeeds when needed. -/
def fileBody (fs : FS) (f : String) (i : Nat) : String :=
  match fs.readFile f with
  | .ok c =>
    match fs.writeError .content i with
    | some e => errMsg f e
    | none => c
  | .error e => errMsg f e

/-- Header plus body for the file at index `i`. -/
def fileBlockAt (fs : FS) (useAbs : Bool) (f : String) (i : Nat) : String :=
  headerLine useAbs fs f ++ fileBody fs f i

/-- Header plus body for a file in a run without write faults. -/
def fileBlock (fs : FS) (useAbs : Bool) (f : String) : String :=
  headerLine useAbs fs f ++
    (match fs.readFile f with
     | .ok c => c
     | .error e => errMsg f e)

/-- Console messages printed for the file at index `i`. -/
def filePrint (fs : FS) (f : String) (i : Nat) : List String :=
  match fs.readFile f with
  | .ok _ =>
    match fs.writeError .content i with
    | some e => [errMsg f e]
    | none => []
  | .error e => [errMsg f e]

/-- Output text of the merge loop from index `i` on (separator before every
block except at index `0`). -/
def renderFrom (fs : FS) (useAbs : Bool) : List String → Nat → String
  | [], _ => ""
  | f :: rest, i =>
    (if i > 0 then "\n\n" else "") ++ fileBlockAt fs useAbs f i ++
      renderFrom fs useAbs rest (i + 1)

/-- Console messages of the merge loop from index `i` on. -/
def printsFrom (fs : FS) : List String → Nat → List String
  | [], _ => []
  | f :: rest, i => filePrint fs f i ++ printsFrom fs rest (i + 1)

/-- Blocks after the first, each preceded by the blank-line separator. -/
def tailJoin : List String → String
  | [] => ""
  | b :: rest => "\n\n" ++ b ++ tailJoin rest

/-- Blocks joined by the blank-line separator `"\n\n"`: none before the
first block, none after the last. -/
def sepJoin : List String → String
  | [] => ""
  | b :: rest => b ++ tailJoin rest

/-- No write call on the output handle fails. -/
def CleanWrites (fs : FS) : Prop :=
  ∀ k i, fs.writeError k i = none

/-- No separator, header, or marker write fails (content writes may). -/
def CleanScaffold (fs : FS) : Prop :=
  ∀ i, fs.writeError .sep i = none ∧ fs.writeError .header i = none ∧
    fs.writeError .marker i = none

/-! ### The discovery stream

`discover` folds `addCandidate` over the files each input specification
contributes (`contrib`) and appends the warnings each contributes
(`warnOf`).  This factored view makes order-independence arguments direct. -/

/-- Files the glob branch keeps for a specification: regular files, and
(unless hidden files are included) only paths with no hidden segment. -/
def globKept (fs : FS) (includeHidden : Bool) (path : String) : List String :=
  (fs.globMatches path).filter fun fp =>
    fs.isfile fp && !(!includeHidden && hasHiddenSeg fp)

/-- Files one input specification contributes to the candidate set. -/
def contrib (fs : FS) (includeHidden : Bool) (path : String) : List String :=
  if fs.isdir path then walkFiles fs includeHidden fs.maxDepth path
  else globKept fs includeHidden path

/-- Warnings one input specification prints. -/
def warnOf (fs : FS) (path : String) : List String :=
  if fs.isdir path then []
  else if (fs.globMatches path).isEmpty && !strHasChar path '*' && !strHasChar path '?' then
    [warnMsg path]
  else []

/-! ### Enumeration-order equivalence of filesystems -/

/-- Two filesystem oracles that agree on everything except the ORDER in
which directory listings and glob expansions enumerate their results. -/
structure EnumEquiv (fs1 fs2 : FS) : Prop where
  isdir_eq : ∀ p, fs1.isdir p = fs2.isdir p
  listdir_perm : ∀ p, (fs1.listdir p).Perm (fs2.listdir p)
  glob_perm : ∀ p, (fs1.globMatches p).Perm (fs2.globMatches p)
  isfile_eq : ∀ p, fs1.isfile p = fs2.isfile p
  read_eq : ∀ p, fs1.readFile p = fs2.readFile p
  abspath_eq : ∀ p, fs1.abspath p = fs2.abspath p
  open_eq : fs1.openOutputError = fs2.openOutputError
  write_eq : ∀ k i, fs1.writeError k i = fs2.writeError k i
  depth_eq : fs1.maxDepth = fs2.maxDepth

/-- An empty filesystem for the fatal-exit witnesses. -/
def fsNull : FS where
  isdir := fun _ => false
  listdir := fun _ => []
  globMatches := fun _ => []
  isfile := fun _ => false
  readFile := fun _ => .error "missing"
  abspath := fun p => p
  openOutputError := none
  writeError := fun _ _ => none
  maxDepth := 0

/-- A hidden directory named directly as the input specification: directory
`.h` contains `a.txt`. -/
def fsHiddenRoot : FS where
  isdir := fun p => p == ".h"
  listdir := fun p => if p == ".h" then [⟨"a.txt", false⟩] else []
  globMatches := fun _ => []
  isfile := fun _ => false
  readFile := fun p => if p == ".h/a.txt" then .ok "A" else .error "missing"
  abspath := fun p => p
  openOutputError := none
  writeError := fun _ _ => none
  maxDepth := 2

/-- Directory `proj` holding a readable `a.txt` and a `gone.txt` whose read
raises (e.g. deleted between discovery and merge). -/
def fsErr : FS where
  isdir := fun p => p == "proj"
  listdir := fun p => if p == "proj" then [⟨"gone.txt", false⟩, ⟨"a.txt", false⟩] else []
  globMatches := fun _ => []
  isfile := fun _ => false
  readFile := fun p => if p == "proj/a.txt" then .ok "A" else .error "deleted"
  abspath := fun p => p
  openOutputError := none
  writeError := fun _ _ => none
  maxDepth := 2

/-- `fsProj` with an unwritable output path. -/
def fsOpenErr : FS :=
  { fsProj with openOutputError := some "permission denied" }

/-- `fsProj` with every directory listing enumerated in a different order. -/
def fsProjSwap : FS where
  isdir := fun p => p == "proj"
  listdir := fun p =>
    if p == "proj" then [⟨"a.txt", false⟩, ⟨".hidden", true⟩, ⟨"b.txt", false⟩]
    else if p == "proj/.hidden" then [⟨"c.txt", false⟩]
    else []
  globMatches := fun _ => []
  isfile := fun _ => false
  readFile := fun p =>
    if p == "proj/a.txt" then .ok "A"
    else if p == "proj/b.txt" then .ok "B"
    else if p == "proj/.hidden/c.txt" then .ok "C"
    else .error "missing"
  abspath := fun p => "/abs/" ++ p
  openOutputError := none
  writeError := fun _ _ => none
  maxDepth := 3

/-- Filesystem where the literal-looking specification `a[b]` (which
contains the glob metacharacter `[`) matches nothing. -/
def fsBracket : FS where
  isdir := fun _ => false
  listdir := fun _ => []
  globMatches := fun _ => []
  isfile := fun _ => false
  readFile := fun _ => .error "missing"
  abspath := fun p => p
  openOutputError := none
  writeError := fun _ _ => none
  maxDepth := 0

/-- The characters `glob.has_magic` treats as wildcard metacharacters. -/
def hasWildcardMeta (p : String) : Bool :=
  strHasChar p '*' || strHasChar p '?' || strHasChar p '['

/-- One glob-discovered file whose read fails and whose inline-marker write
also fails. -/
def fsMk : FS where
  isdir := fun _ => false
  listdir := fun _ => []
  globMatches := fun p => if p == "f.txt" then ["f.txt"] else []
  isfile := fun p => p == "f.txt"
  readFile := fun _ => .error "boom"
  abspath := fun p => p
  openOutputError := none
  writeError := fun k _ =>
    match k with
    | .marker => some "disk full"
    | _ => none
  maxDepth := 0

/-- One glob-discovered file whose content write fails (but whose
separator/header/marker writes succeed). -/
def fsCW : FS where
  isdir := fun _ => false
  listdir := fun _ => []
  globMatches := fun p => if p == "f.txt" then ["f.txt"] else []
  isfile := fun p => p == "f.txt"
  readFile := fun p => if p == "f.txt" then .ok "A" else .error "missing"
  abspath := fun p => p
  openOutputError := none
  writeError := fun k _ =>
    match k with
    | .content => some "disk full"
    | _ => none
  maxDepth := 0

example : fnmatch "b.txt" "*.txt" = true := by decide
example : fnmatch "dir/b.txt" "*.txt" = true := by decide
example : fnmatch "b.log" "*.txt" = false := by decide
example : fnmatch "ab" "a[b-d]" = true := by decide
example : fnmatch "ae" "a[b-d]" = false := by decide
example : fnmatch "ae" "a[!b-d]" = true := by decide
example : fnmatch "a[b" "a[b" = true := by decide
example : fnmatch "abc" "a?c" = true := by decide
example : fnmatch "axyzc" "a*c" = true := by decide
example : normpath "a//b/./c/../d/" = "a/b/d" := by decide
example : normpath "../x" = "../x" := by decide
example : normpath "/.." = "/" := by decide
example : normpath "b/" = "b" := by decide
example : basename "a/b/c.txt" = "c.txt" := by decide
example : basename "a/b/" = "" := by decide
example : basename "c.txt" = "c.txt" := by decide
example : joinPath "a" "b" = "a/b" := by decide
example : joinPath "a/" "b" = "a/b" := by decide
example : hasHiddenSeg ".h/a.txt" = true := by decide
example : hasHiddenSeg "./a.txt" = false := by decide
example : hasHiddenSeg "a/b.txt" = false := by decide

theorem lexLt_asymm : ∀ x y, lexLt x y = true → lexLt y x = false := by
  intro x
  induction x with
  | nil => intro y h; cases y <;> simp_all [lexLt]
  | cons a as ih =>
    intro y h
    cases y with
    | nil => simp [lexLt] at h
    | cons b bs =>
      simp only [lexLt] at h ⊢
      by_cases h1 : a.toNat < b.toNat
      · have h2 : ¬ b.toNat < a.toNat := by omega
        simp [h1, h2]
      · by_cases h2 : b.toNat < a.toNat
        · simp [h1, h2] at h
        · simp only [h1, h2, if_neg, if_false] at h ⊢
          simp [ih bs h]

theorem lexLt_connex : ∀ x y, lexLt x y = false → lexLt y x = false → x = y := by
  intro x
  induction x with
  | nil => intro y h1 h2; cases y <;> simp_all [lexLt]
  | cons a as ih =>
    intro y h1 h2
    cases y with
    | nil => simp [lexLt] at h2
    | cons b bs =>
      simp only [lexLt] at h1 h2
      by_cases hab : a.toNat < b.toNat
      · simp [hab] at h1
      · by_cases hba : b.toNat < a.toNat
        · simp [hba, hab] at h2
        · simp only [hab, hba, if_false] at h1 h2
          have h3 : a.toNat = b.toNat := by omega
          have hv : a = b := by
            calc a = Char.ofNat a.toNat := (Char.ofNat_toNat a).symm
            _ = Char.ofNat b.toNat := by rw [h3]
            _ = b := Char.ofNat_toNat b
          rw [hv, ih bs h1 h2]

theorem lexLt_trans : ∀ x y z, lexLt x y = true → lexLt y z = true → lexLt x z = true := by
  intro x
  induction x with
  | nil =>
    intro y z h1 h2
    cases y with
    | nil => simp [lexLt] at h1
    | cons b bs =>
      cases z with
      | nil => simp [lexLt] at h2
      | cons c cs => simp [lexLt]
  | cons a as ih =>
    intro y z h1 h2
    cases y with
    | nil => simp [lexLt] at h1
    | cons b bs =>
      cases z with
      | nil => simp [lexLt] at h2
      | cons c cs =>
        simp only [lexLt] at h1 h2 ⊢
        by_cases hab : a.toNat < b.toNat
        · by_cases hbc : b.toNat < c.toNat
          · have : a.toNat < c.toNat := by omega
            simp [this]
          · by_cases hcb : c.toNat < b.toNat
            · simp [hbc, hcb] at h2
            · have : a.toNat < c.toNat := by omega
              simp [this]
        · by_cases hba : b.toNat < a.toNat
          · simp [hab, hba] at h1
          · simp only [hab, hba, if_false] at h1
            by_cases hbc : b.toNat < c.toNat
            · have hac : a.toNat < c.toNat := by omega
              simp [hac]
            · by_cases hcb : c.toNat < b.toNat
              · simp [hbc, hcb] at h2
              · simp only [hbc, hcb, if_false] at h2
                have hac : ¬ a.toNat < c.toNat := by omega
                have hca : ¬ c.toNat < a.toNat := by omega
                simp only [hac, hca, if_false]
                exact ih bs cs h1 h2

instance : IsTotal String StrOrd := by
  constructor
  intro a b
  unfold StrOrd strLe
  by_cases h : lexLt b.data a.data = true
  · right
    simp [lexLt_asymm _ _ h]
  · left
    simp_all

instance : IsTrans String StrOrd := by
  constructor
  intro a b c h1 h2
  unfold StrOrd strLe at h1 h2 ⊢
  simp only [Bool.not_eq_true'] at h1 h2 ⊢
  by_cases hca : lexLt c.data a.data = true
  · by_cases hbc : lexLt b.data c.data = true
    · exact absurd (lexLt_trans _ _ _ hbc hca) (by simp [h1])
    · have : b.data = c.data := lexLt_connex _ _ (by simp_all) h2
      rw [this] at h1
      exact absurd hca (by simp [h1])
  · simp_all

instance : IsAntisymm String StrOrd := by
  constructor
  intro a b h1 h2
  unfold StrOrd strLe at h1 h2
  simp only [Bool.not_eq_true'] at h1 h2
  have h3 : a.data = b.data := lexLt_connex _ _ h2 h1
  cases a
  cases b
  exact congrArg String.mk h3

example : discover fsProj false ["proj"] = (["proj/b.txt", "proj/a.txt"], []) := by decide

example :
    List.insertionSort StrOrd ["proj/b.txt", "proj/a.txt"] =
      ["proj/a.txt", "proj/b.txt"] := by decide

example :
    mergeLoop fsProj false ["proj/a.txt", "proj/b.txt"] 0 "" [] =
      .done "--- proj/a.txt ---\nA\n\n--- proj/b.txt ---\nB" [] := by decide

example :
    combineFiles fsProj "out.txt" ["proj"] [] false false =
      (.success "--- proj/a.txt ---\nA\n\n--- proj/b.txt ---\nB", []) := by decide

example :
    combineFiles fsProj "out.txt" ["proj"] ["b.txt"] false false =
      (.success "--- proj/a.txt ---\nA", []) := by decide

example :
    combineFiles fsProj "out.txt" ["proj"] [] false true =
      (.success
        "--- proj/.hidden/c.txt ---\nC\n\n--- proj/a.txt ---\nA\n\n--- proj/b.txt ---\nB",
       []) := by decide

example :
    combineFiles fsProj "out.txt" ["proj"] ["*.txt"] false false =
      (.emptyError, [emptyMsg]) := by decide

example :
    combineFiles fsProj "out.txt" ["nothing"] [] false false =
      (.emptyError, [warnMsg "nothing", emptyMsg]) := by decide

theorem mergeFile_clean (fs : FS) (u : Bool) (f : String) (i : Nat) (acc : String)
    (console : List String)
    (hs : fs.writeError .sep i = none) (hh : fs.writeError .header i = none)
    (hm : fs.writeError .marker i = none) :
    mergeFile fs u f i acc console =
      .done (acc ++ ((if i > 0 then "\n\n" else "") ++ fileBlockAt fs u f i))
        (console ++ filePrint fs f i) := by
  cases hr : fs.readFile f with
  | ok content =>
    cases hc : fs.writeError .content i with
    | none =>
      by_cases hi : 0 < i <;>
        simp [mergeFile, writeStep, hs, hh, hm, hr, hc, hi, fileBlockAt, fileBody, filePrint,
          String.append_assoc]
    | some e =>
      by_cases hi : 0 < i <;>
        simp [mergeFile, writeStep, hs, hh, hm, hr, hc, hi, fileBlockAt, fileBody, filePrint,
          String.append_assoc]
  | error e =>
    by_cases hi : 0 < i <;>
      simp [mergeFile, writeStep, hs, hh, hm, hr, hi, fileBlockAt, fileBody, filePrint,
        String.append_assoc]

theorem mergeLoop_clean (fs : FS) (u : Bool) (h : CleanScaffold fs) :
    ∀ (files : List String) (i : Nat) (acc : String) (console : List String),
      mergeLoop fs u files i acc console =
        .done (acc ++ renderFrom fs u files i) (console ++ printsFrom fs files i) := by
  intro files
  induction files with
  | nil =>
    intro i acc console
    simp [mergeLoop, renderFrom, printsFrom]
  | cons f rest ih =>
    intro i acc console
    obtain ⟨hs, hh, hm⟩ := h i
    simp only [mergeLoop]
    rw [mergeFile_clean fs u f i acc console hs hh hm]
    simp only []
    rw [ih]
    simp [renderFrom, printsFrom, String.append_assoc, List.append_assoc]

theorem fileBlockAt_noFault (fs : FS) (u : Bool) (f : String) (i : Nat)
    (h : fs.writeError .content i = none) :
    fileBlockAt fs u f i = fileBlock fs u f := by
  unfold fileBlockAt fileBody fileBlock
  cases fs.readFile f <;> simp [h]

theorem renderFrom_pos (fs : FS) (u : Bool) (h : CleanWrites fs) :
    ∀ (files : List String) (i : Nat), 0 < i →
      renderFrom fs u files i = tailJoin (files.map (fileBlock fs u)) := by
  intro files
  induction files with
  | nil => intro i _; simp [renderFrom, tailJoin]
  | cons f rest ih =>
    intro i hi
    simp only [renderFrom, List.map_cons, tailJoin]
    rw [if_pos hi, fileBlockAt_noFault fs u f i (h .content i), ih (i + 1) (by omega)]

theorem renderFrom_zero (fs : FS) (u : Bool) (h : CleanWrites fs) (files : List String) :
    renderFrom fs u files 0 = sepJoin (files.map (fileBlock fs u)) := by
  cases files with
  | nil => simp [renderFrom, sepJoin]
  | cons f rest =>
    simp only [renderFrom, List.map_cons, sepJoin]
    rw [if_neg (by omega), fileBlockAt_noFault fs u f 0 (h .content 0),
      renderFrom_pos fs u h rest 1 (by omega)]
    simp

/-- A run that reaches the merge and suffers no write faults succeeds with
the sorted blocks joined by the blank-line separator. -/
theorem combineFiles_clean (fs : FS) (out : String) (inputs ex : List String) (u hid : Bool)
    (hne : (filesToProcess fs hid inputs ex).isEmpty = false)
    (hopen : fs.openOutputError = none)
    (hclean : CleanWrites fs) :
    combineFiles fs out inputs ex u hid =
      (.success (sepJoin ((processedFiles fs hid inputs ex).map (fileBlock fs u))),
       (discover fs hid inputs).2 ++ printsFrom fs (processedFiles fs hid inputs ex) 0) := by
  have hscaffold : CleanScaffold fs := fun i => ⟨hclean _ i, hclean _ i, hclean _ i⟩
  unfold combineFiles
  simp only [hopen]
  rw [show filterFiles ex (discover fs hid inputs).1 = filesToProcess fs hid inputs ex from rfl,
    hne]
  simp only [Bool.false_eq_true, if_false]
  rw [mergeLoop_clean fs u hscaffold (List.insertionSort StrOrd (filesToProcess fs hid inputs ex)) 0 "" []]
  simp only []
  rw [renderFrom_zero fs u hclean]
  simp [processedFiles]

/-! ### Sorting facts -/

theorem processed_sorted (fs : FS) (hid : Bool) (inputs ex : List String) :
    List.Sorted StrOrd (processedFiles fs hid inputs ex) :=
  List.sorted_insertionSort StrOrd _

theorem processed_perm (fs : FS) (hid : Bool) (inputs ex : List String) :
    (processedFiles fs hid inputs ex).Perm (filesToProcess fs hid inputs ex) :=
  List.perm_insertionSort StrOrd _

/-- Sorting depends only on the multiset of elements: any enumeration order
of the surviving files yields the same sorted list. -/
theorem insertionSort_perm_eq {l l2 : List String} (h : l.Perm l2) :
    List.insertionSort StrOrd l = List.insertionSort StrOrd l2 :=
  List.eq_of_perm_of_sorted
    ((List.perm_insertionSort StrOrd l).trans
      (h.trans (List.perm_insertionSort StrOrd l2).symm))
    (List.sorted_insertionSort StrOrd l) (List.sorted_insertionSort StrOrd l2)

theorem foldl_filter_add (keep : String → Bool) :
    ∀ (matched c : List String),
      matched.foldl (fun c fp => if keep fp then addCandidate c fp else c) c =
        (matched.filter keep).foldl addCandidate c := by
  intro matched
  induction matched with
  | nil => intro c; rfl
  | cons fp rest ih =>
    intro c
    cases hk : keep fp <;> simp [List.foldl_cons, List.filter_cons, hk, ih]

theorem globFold_eq (fs : FS) (hid : Bool) (matched : List String) (c : List String) :
    matched.foldl
      (fun c fp =>
        if fs.isfile fp then
          if !hid && hasHiddenSeg fp then c else addCandidate c fp
        else c) c =
    ((matched.filter fun fp => fs.isfile fp && !(!hid && hasHiddenSeg fp)).foldl
      addCandidate c) := by
  have hfun : (fun (c : List String) fp =>
      if fs.isfile fp then
        if !hid && hasHiddenSeg fp then c else addCandidate c fp
      else c) =
      fun c fp => if fs.isfile fp && !(!hid && hasHiddenSeg fp) then addCandidate c fp else c := by
    funext c fp
    cases hf : fs.isfile fp <;> cases hh : hasHiddenSeg fp <;> cases hid <;> simp [hf, hh]
  rw [hfun]
  exact foldl_filter_add _ matched c

theorem discoverStep_fst (fs : FS) (hid : Bool) (acc : List String × List String)
    (path : String) :
    (discoverStep fs hid acc path).1 = (contrib fs hid path).foldl addCandidate acc.1 := by
  unfold discoverStep contrib globKept
  by_cases hd : fs.isdir path = true
  · simp [hd]
  · simp only [Bool.not_eq_true] at hd
    simp only [hd, Bool.false_eq_true, if_false]
    exact globFold_eq fs hid (fs.globMatches path) acc.1

theorem discoverStep_snd (fs : FS) (hid : Bool) (acc : List String × List String)
    (path : String) :
    (discoverStep fs hid acc path).2 = acc.2 ++ warnOf fs path := by
  unfold discoverStep warnOf
  by_cases hd : fs.isdir path = true
  · simp [hd]
  · simp only [Bool.not_eq_true] at hd
    by_cases hw : ((fs.globMatches path).isEmpty && !strHasChar path '*' &&
        !strHasChar path '?') = true
    · simp [hd, hw]
    · simp only [Bool.not_eq_true] at hw
      simp [hd, hw]

theorem discover_foldl (fs : FS) (hid : Bool) :
    ∀ (inputs : List String) (acc : List String × List String),
      inputs.foldl (discoverStep fs hid) acc =
        ((inputs.flatMap (contrib fs hid)).foldl addCandidate acc.1,
         acc.2 ++ inputs.flatMap (warnOf fs)) := by
  intro inputs
  induction inputs with
  | nil => intro acc; simp
  | cons path rest ih =>
    intro acc
    rw [List.foldl_cons, ih]
    rw [discoverStep_fst, discoverStep_snd]
    simp [List.foldl_append, List.append_assoc]

theorem discover_fst (fs : FS) (hid : Bool) (inputs : List String) :
    (discover fs hid inputs).1 = (inputs.flatMap (contrib fs hid)).foldl addCandidate [] := by
  unfold discover
  rw [discover_foldl]

theorem discover_snd (fs : FS) (hid : Bool) (inputs : List String) :
    (discover fs hid inputs).2 = inputs.flatMap (warnOf fs) := by
  unfold discover
  rw [discover_foldl]
  simp

/-! ### The candidate set as a set -/

theorem mem_addCandidate (s : List String) (f x : String) :
    x ∈ addCandidate s f ↔ x ∈ s ∨ x = f := by
  unfold addCandidate
  by_cases h : f ∈ s
  · simp only [h, if_true]
    constructor
    · exact Or.inl
    · rintro (hx | rfl) <;> assumption
  · simp [h]

theorem nodup_addCandidate (s : List String) (f : String) (h : s.Nodup) :
    (addCandidate s f).Nodup := by
  unfold addCandidate
  by_cases hf : f ∈ s
  · simpa [hf]
  · simp only [hf, if_false]
    rw [List.nodup_append]
    exact ⟨h, List.nodup_singleton f, by simpa using hf⟩

theorem mem_foldl_addCandidate (l : List String) :
    ∀ (acc : List String) (x : String),
      x ∈ l.foldl addCandidate acc ↔ x ∈ acc ∨ x ∈ l := by
  induction l with
  | nil => intro acc x; simp
  | cons f rest ih =>
    intro acc x
    rw [List.foldl_cons, ih, mem_addCandidate]
    constructor
    · rintro ((hx | rfl) | hx)
      · exact Or.inl hx
      · exact Or.inr (List.mem_cons_self _ _)
      · exact Or.inr (List.mem_cons_of_mem _ hx)
    · rintro (hx | hx)
      · exact Or.inl (Or.inl hx)
      · rcases List.mem_cons.mp hx with rfl | hx
        · exact Or.inl (Or.inr rfl)
        · exact Or.inr hx

theorem nodup_foldl_addCandidate (l : List String) :
    ∀ acc : List String, acc.Nodup → (l.foldl addCandidate acc).Nodup := by
  induction l with
  | nil => intro acc h; simpa
  | cons f rest ih =>
    intro acc h
    exact ih _ (nodup_addCandidate acc f h)

/-- Folding the set-insertion over permuted streams produces permuted
candidate lists. -/
theorem foldl_addCandidate_perm {l l2 : List String} (h : l.Perm l2) :
    (l.foldl addCandidate []).Perm (l2.foldl addCandidate []) := by
  apply (List.perm_ext_iff_of_nodup (nodup_foldl_addCandidate l [] List.nodup_nil)
    (nodup_foldl_addCandidate l2 [] List.nodup_nil)).mpr
  intro a
  rw [mem_foldl_addCandidate, mem_foldl_addCandidate, h.mem_iff]

/-! ### Hidden segments in discovered paths -/

/-- Every file the walk yields under the default hidden policy is the input
directory followed by non-hidden segments: the traversal never appends a
hidden name, but the input directory's own path is taken as given. -/
theorem walkFiles_shape (fs : FS) :
    ∀ (fuel : Nat) (d f : String), f ∈ walkFiles fs false fuel d →
      ∃ segs : List String, f = segs.foldl joinPath d ∧
        ∀ s ∈ segs, strStarts s "." = false := by
  intro fuel
  induction fuel with
  | zero => intro d f hf; simp [walkFiles] at hf
  | succ n ih =>
    intro d f hf
    simp only [walkFiles, Bool.false_eq_true, if_false, List.mem_append, List.mem_map,
      List.mem_flatMap, List.mem_filter] at hf
    rcases hf with ⟨name, ⟨_, hnh⟩, rfl⟩ | ⟨dn, ⟨_, hdnh⟩, hfw⟩
    · refine ⟨[name], rfl, ?_⟩
      intro s hs
      rcases List.mem_singleton.mp hs
      simpa using hnh
    · obtain ⟨segs, heq, hsegs⟩ := ih (joinPath d dn) f hfw
      refine ⟨dn :: segs, ?_, ?_⟩
      · rw [List.foldl_cons]; exact heq
      · intro s hs
        rcases List.mem_cons.mp hs with rfl | hs
        · simpa using hdnh
        · exact hsegs s hs

/-- Under the default hidden policy, the glob branch never keeps a path with
a hidden segment. -/
theorem globKept_hidden (fs : FS) (path f : String)
    (hf : f ∈ globKept fs false path) : hasHiddenSeg f = false := by
  unfold globKept at hf
  rw [List.mem_filter] at hf
  have h2 := hf.2
  cases hh : hasHiddenSeg f
  · rfl
  · simp [hh] at h2

/-- Every candidate of a default-policy run either has no hidden segment at
all (glob branch) or consists of an input directory specification followed
by non-hidden segments (walk branch). -/
theorem candidateFiles_hidden (fs : FS) (inputs : List String) (f : String)
    (hf : f ∈ candidateFiles fs false inputs) :
    hasHiddenSeg f = false ∨
      ∃ d ∈ inputs, fs.isdir d = true ∧ ∃ segs : List String,
        f = segs.foldl joinPath d ∧ ∀ s ∈ segs, strStarts s "." = false := by
  unfold candidateFiles at hf
  rw [discover_fst, mem_foldl_addCandidate] at hf
  rcases hf with hf | hf
  · simp at hf
  · rw [List.mem_flatMap] at hf
    obtain ⟨d, hd, hfd⟩ := hf
    unfold contrib at hfd
    by_cases hdir : fs.isdir d = true
    · rw [if_pos hdir] at hfd
      obtain ⟨segs, heq, hsegs⟩ := walkFiles_shape fs fs.maxDepth d f hfd
      exact Or.inr ⟨d, hd, hdir, segs, heq, hsegs⟩
    · rw [if_neg hdir] at hfd
      exact Or.inl (globKept_hidden fs d f hfd)

/-- Files in merge order all come from the candidate set. -/
theorem mem_processed_mem_candidates (fs : FS) (hid : Bool)
    (inputs ex : List String) (f : String)
    (hf : f ∈ processedFiles fs hid inputs ex) : f ∈ candidateFiles fs hid inputs := by
  unfold processedFiles at hf
  rw [List.mem_insertionSort] at hf
  unfold filesToProcess filterFiles at hf
  by_cases he : ex.isEmpty = true
  · rwa [if_pos he] at hf
  · rw [if_neg he] at hf
    exact (List.mem_filter.mp hf).1

theorem walkFiles_perm (fs1 fs2 : FS) (hid : Bool)
    (hl : ∀ p, (fs1.listdir p).Perm (fs2.listdir p)) :
    ∀ (fuel : Nat) (d : String),
      (walkFiles fs1 hid fuel d).Perm (walkFiles fs2 hid fuel d) := by
  intro fuel
  induction fuel with
  | zero => intro d; simp [walkFiles]
  | succ n ih =>
    intro d
    simp only [walkFiles]
    have hfiles0 : (((fs1.listdir d).filter (fun e => !e.isDir)).map (·.name)).Perm
        (((fs2.listdir d).filter (fun e => !e.isDir)).map (·.name)) :=
      ((hl d).filter _).map _
    have hdirs0 : (((fs1.listdir d).filter (·.isDir)).map (·.name)).Perm
        (((fs2.listdir d).filter (·.isDir)).map (·.name)) :=
      ((hl d).filter _).map _
    apply List.Perm.append
    · apply List.Perm.map
      cases hid
      · simpa using hfiles0.filter _
      · simpa using hfiles0
    · have hdirs : (if hid then ((fs1.listdir d).filter (·.isDir)).map (·.name)
          else (((fs1.listdir d).filter (·.isDir)).map (·.name)).filter
            (fun dn => !strStarts dn ".")).Perm
          (if hid then ((fs2.listdir d).filter (·.isDir)).map (·.name)
          else (((fs2.listdir d).filter (·.isDir)).map (·.name)).filter
            (fun dn => !strStarts dn ".")) := by
        cases hid
        · simpa using hdirs0.filter _
        · simpa using hdirs0
      exact (hdirs.flatMap_right _).trans
        (List.Perm.flatMap_left _ (fun a _ => ih (joinPath d a)))

theorem contrib_perm (fs1 fs2 : FS) (hid : Bool) (h : EnumEquiv fs1 fs2) (path : String) :
    (contrib fs1 hid path).Perm (contrib fs2 hid path) := by
  unfold contrib globKept
  rw [h.isdir_eq path, h.depth_eq]
  by_cases hd : fs2.isdir path = true
  · rw [if_pos hd, if_pos hd]
    exact walkFiles_perm fs1 fs2 hid h.listdir_perm fs2.maxDepth path
  · rw [if_neg hd, if_neg hd]
    have hfil : (fun fp => fs1.isfile fp && !(!hid && hasHiddenSeg fp)) =
        (fun fp => fs2.isfile fp && !(!hid && hasHiddenSeg fp)) := by
      funext fp; rw [h.isfile_eq]
    rw [hfil]
    exact (h.glob_perm path).filter _

theorem candidateFiles_perm (fs1 fs2 : FS) (h : EnumEquiv fs1 fs2) (hid : Bool)
    (inputs : List String) :
    (candidateFiles fs1 hid inputs).Perm (candidateFiles fs2 hid inputs) := by
  unfold candidateFiles
  rw [discover_fst, discover_fst]
  exact foldl_addCandidate_perm
    (List.Perm.flatMap_left inputs (fun a _ => contrib_perm fs1 fs2 hid h a))

theorem warnOf_eq (fs1 fs2 : FS) (h : EnumEquiv fs1 fs2) (path : String) :
    warnOf fs1 path = warnOf fs2 path := by
  unfold warnOf
  rw [h.isdir_eq path]
  have hempty : (fs1.globMatches path).isEmpty = (fs2.globMatches path).isEmpty := by
    have hlen := (h.glob_perm path).length_eq
    cases h1 : fs1.globMatches path <;> cases h2 : fs2.globMatches path <;>
      simp_all
  rw [hempty]

theorem discover_snd_eq (fs1 fs2 : FS) (h : EnumEquiv fs1 fs2) (hid : Bool)
    (inputs : List String) :
    (discover fs1 hid inputs).2 = (discover fs2 hid inputs).2 := by
  rw [discover_snd, discover_snd,
    show warnOf fs1 = warnOf fs2 from funext (warnOf_eq fs1 fs2 h)]

theorem mergeFile_congr (fs1 fs2 : FS) (h : EnumEquiv fs1 fs2) (u : Bool)
    (f : String) (i : Nat) (acc : String) (console : List String) :
    mergeFile fs1 u f i acc console = mergeFile fs2 u f i acc console := by
  simp only [mergeFile, writeStep, headerLine, h.write_eq, h.read_eq, h.abspath_eq]

theorem mergeLoop_congr (fs1 fs2 : FS) (h : EnumEquiv fs1 fs2) (u : Bool) :
    ∀ (files : List String) (i : Nat) (acc : String) (console : List String),
      mergeLoop fs1 u files i acc console = mergeLoop fs2 u files i acc console := by
  intro files
  induction files with
  | nil => intros; rfl
  | cons f rest ih =>
    intro i acc console
    simp only [mergeLoop, mergeFile_congr fs1 fs2 h u f i acc console]
    cases mergeFile fs2 u f i acc console with
    | abort w m c => rfl
    | done acc2 c2 => exact ih (i + 1) acc2 c2

theorem filesToProcess_perm (fs1 fs2 : FS) (h : EnumEquiv fs1 fs2) (hid : Bool)
    (inputs ex : List String) :
    (filesToProcess fs1 hid inputs ex).Perm (filesToProcess fs2 hid inputs ex) := by
  unfold filesToProcess filterFiles
  by_cases he : ex.isEmpty = true
  · rw [if_pos he, if_pos he]
    exact candidateFiles_perm fs1 fs2 h hid inputs
  · rw [if_neg he, if_neg he]
    exact (candidateFiles_perm fs1 fs2 h hid inputs).filter _

/-! ### Merge loop: composition and fault behaviour -/

theorem mergeLoop_append (fs : FS) (u : Bool) :
    ∀ (l1 l2 : List String) (i : Nat) (acc : String) (console : List String),
      mergeLoop fs u (l1 ++ l2) i acc console =
        (match mergeLoop fs u l1 i acc console with
         | .abort w m c => .abort w m c
         | .done out c => mergeLoop fs u l2 (i + l1.length) out c) := by
  intro l1
  induction l1 with
  | nil => intro l2 i acc console; simp [mergeLoop]
  | cons f rest ih =>
    intro l2 i acc console
    simp only [List.cons_append, List.append_eq, mergeLoop, List.length_cons]
    cases hmf : mergeFile fs u f i acc console with
    | abort w m c => rfl
    | done acc2 c2 =>
      dsimp only
      rw [ih]
      have h3 : i + 1 + rest.length = i + (rest.length + 1) := by omega
      rw [h3]

theorem mergeLoop_clean_range (fs : FS) (u : Bool) :
    ∀ (files : List String) (i : Nat) (acc : String) (console : List String),
      (∀ j, i ≤ j → j < i + files.length →
        fs.writeError .sep j = none ∧ fs.writeError .header j = none ∧
          fs.writeError .marker j = none) →
      mergeLoop fs u files i acc console =
        .done (acc ++ renderFrom fs u files i) (console ++ printsFrom fs files i) := by
  intro files
  induction files with
  | nil => intro i acc console _; simp [mergeLoop, renderFrom, printsFrom]
  | cons f rest ih =>
    intro i acc console hc
    obtain ⟨hs, hh, hm⟩ := hc i (Nat.le_refl i) (by simp only [List.length_cons]; omega)
    simp only [mergeLoop]
    rw [mergeFile_clean fs u f i acc console hs hh hm]
    simp only []
    rw [ih (i + 1) _ _ (fun j hj1 hj2 => hc j (by omega)
      (by simp only [List.length_cons] at hj2 ⊢; omega))]
    simp [renderFrom, printsFrom, String.append_assoc, List.append_assoc]

theorem mergeFile_sepFault (fs : FS) (u : Bool) (f : String) (i : Nat) (acc : String)
    (console : List String) (e : String) (hi : 0 < i)
    (hs : fs.writeError .sep i = some e) :
    mergeFile fs u f i acc console = .abort acc e console := by
  simp [mergeFile, writeStep, hi, hs]

theorem mergeFile_headerFault (fs : FS) (u : Bool) (f : String) (i : Nat) (acc : String)
    (console : List String) (e : String)
    (hs : fs.writeError .sep i = none)
    (hh : fs.writeError .header i = some e) :
    mergeFile fs u f i acc console =
      .abort (acc ++ (if 0 < i then "\n\n" else "")) e console := by
  by_cases hi : 0 < i <;> simp [mergeFile, writeStep, hi, hs, hh]

theorem mergeFile_markerFault (fs : FS) (u : Bool) (f : String) (i : Nat) (acc : String)
    (console : List String) (e e2 : String)
    (hs : fs.writeError .sep i = none)
    (hh : fs.writeError .header i = none)
    (hr : fs.readFile f = .error e)
    (hm : fs.writeError .marker i = some e2) :
    mergeFile fs u f i acc console =
      .abort (acc ++ ((if 0 < i then "\n\n" else "") ++ headerLine u fs f)) e2
        (console ++ [errMsg f e]) := by
  by_cases hi : 0 < i <;>
    simp [mergeFile, writeStep, hi, hs, hh, hr, hm, String.append_assoc]

/-! ### Splitting rendered output -/

theorem renderFrom_append (fs : FS) (u : Bool) :
    ∀ (l1 l2 : List String) (i : Nat),
      renderFrom fs u (l1 ++ l2) i =
        renderFrom fs u l1 i ++ renderFrom fs u l2 (i + l1.length) := by
  intro l1
  induction l1 with
  | nil => intro l2 i; simp [renderFrom]
  | cons f rest ih =>
    intro l2 i
    simp only [List.cons_append, List.append_eq, renderFrom, List.length_cons]
    have h3 : i + 1 + rest.length = i + (rest.length + 1) := by omega
    rw [ih, h3]
    simp [String.append_assoc]

theorem printsFrom_append (fs : FS) :
    ∀ (l1 l2 : List String) (i : Nat),
      printsFrom fs (l1 ++ l2) i = printsFrom fs l1 i ++ printsFrom fs l2 (i + l1.length) := by
  intro l1
  induction l1 with
  | nil => intro l2 i; simp [printsFrom]
  | cons f rest ih =>
    intro l2 i
    simp only [List.cons_append, List.append_eq, printsFrom, List.length_cons]
    have h3 : i + 1 + rest.length = i + (rest.length + 1) := by omega
    rw [ih, h3]
    simp [List.append_assoc]

theorem tailJoin_append : ∀ l1 l2 : List String,
    tailJoin (l1 ++ l2) = tailJoin l1 ++ tailJoin l2 := by
  intro l1
  induction l1 with
  | nil => intro l2; simp [tailJoin]
  | cons b rest ih =>
    intro l2
    simp only [List.cons_append, List.append_eq, tailJoin]
    rw [ih]
    simp [String.append_assoc]

theorem sepJoin_split (l1 : List String) (x : String) (l2 : List String) :
    ∃ pre post, sepJoin (l1 ++ x :: l2) = pre ++ x ++ post := by
  cases l1 with
  | nil => exact ⟨"", tailJoin l2, by simp [sepJoin]⟩
  | cons b r =>
    refine ⟨b ++ tailJoin r ++ "\n\n", tailJoin l2, ?_⟩
    simp only [List.cons_append, sepJoin, tailJoin_append, tailJoin]
    simp [String.append_assoc]

theorem errMsg_mem_printsFrom (fs : FS) (e : String) :
    ∀ (files : List String) (i : Nat) (f : String), f ∈ files →
      fs.readFile f = .error e → errMsg f e ∈ printsFrom fs files i := by
  intro files
  induction files with
  | nil => intro i f hf _; simp at hf
  | cons g rest ih =>
    intro i f hf he
    rcases List.mem_cons.mp hf with rfl | hf
    · simp only [printsFrom, filePrint, he, List.mem_append]
      exact Or.inl (List.mem_singleton_self _)
    · exact List.mem_append.mpr (Or.inr (ih (i + 1) f hf he))

theorem candidateFiles_input_perm (fs : FS) (hid : Bool) {inputs inputs2 : List String}
    (h : inputs2.Perm inputs) :
    (candidateFiles fs hid inputs2).Perm (candidateFiles fs hid inputs) := by
  unfold candidateFiles
  rw [discover_fst, discover_fst]
  exact foldl_addCandidate_perm (h.flatMap_right _)

theorem filesToProcess_input_perm (fs : FS) (hid : Bool) (ex : List String)
    {inputs inputs2 : List String} (h : inputs2.Perm inputs) :
    (filesToProcess fs hid inputs2 ex).Perm (filesToProcess fs hid inputs ex) := by
  unfold filesToProcess filterFiles
  by_cases he : ex.isEmpty = true
  · rw [if_pos he, if_pos he]
    exact candidateFiles_input_perm fs hid h
  · rw [if_neg he, if_neg he]
    exact (candidateFiles_input_perm fs hid h).filter _

/-! ### Claims -/

/-- C1: in every run where at least one file survives filtering (and the
output is actually produced), the sequence of file blocks in the output is
exactly the surviving paths sorted in code-point lexicographic order; the
sorted order depends only on the set of survivors, not on the enumeration
order of the candidate collection nor on the order of the input
specifications. -/
theorem c1_output_order (fs : FS) (out : String) (inputs ex : List String)
    (u hid : Bool)
    (hne : (filesToProcess fs hid inputs ex).isEmpty = false)
    (hopen : fs.openOutputError = none)
    (hclean : CleanWrites fs) :
    (combineFiles fs out inputs ex u hid).1 =
      .success (sepJoin ((processedFiles fs hid inputs ex).map (fileBlock fs u))) ∧
    List.Sorted StrOrd (processedFiles fs hid inputs ex) ∧
    (processedFiles fs hid inputs ex).Perm (filesToProcess fs hid inputs ex) ∧
    (∀ l : List String, l.Perm (filesToProcess fs hid inputs ex) →
      List.insertionSort StrOrd l = processedFiles fs hid inputs ex) ∧
    (∀ inputs2 : List String, inputs2.Perm inputs →
      processedFiles fs hid inputs2 ex = processedFiles fs hid inputs ex) := by
  refine ⟨?_, processed_sorted fs hid inputs ex, processed_perm fs hid inputs ex, ?_, ?_⟩
  · rw [combineFiles_clean fs out inputs ex u hid hne hopen hclean]
  · intro l hl
    exact insertionSort_perm_eq hl
  · intro inputs2 h2
    exact insertionSort_perm_eq (filesToProcess_input_perm fs hid ex h2)

theorem c1_witness :
    (combineFiles fsProj "out.txt" ["proj"] [] false false).1 =
      .success (sepJoin ((processedFiles fsProj false ["proj"] []).map
        (fileBlock fsProj false))) :=
  (c1_output_order fsProj "out.txt" ["proj"] [] false false (by decide) rfl
    (fun _ _ => rfl)).1

/-- C2: with a non-empty exclusion list, a candidate `f` is removed by the
filter exactly when some pattern `p` (a) `fnmatch`-matches `f`'s base name,
or (b) `fnmatch`-matches the full path `f`, or (c) ends with the path
separator and the normalized `f` starts with the normalized `p` followed by
a separator.  (Short-circuiting at the first satisfied pattern is
observationally invisible for the pure match predicate.) -/
theorem c2_exclusion_rule (excludePatterns candidates : List String) (f : String)
    (hne : excludePatterns ≠ [])
    (hf : f ∈ candidates) :
    f ∉ filterFiles excludePatterns candidates ↔
      ∃ p ∈ excludePatterns,
        fnmatch (basename f) p = true ∨ fnmatch f p = true ∨
          (strEnds p "/" = true ∧
            strStarts (normpath f) (normpath p ++ "/") = true) := by
  unfold filterFiles
  rw [if_neg (by simpa using hne)]
  have hstep : (f ∉ candidates.filter fun g => !(excludePatterns.any (excludeMatch g))) ↔
      excludePatterns.any (excludeMatch f) = true := by
    rw [List.mem_filter]
    simp [hf]
  rw [hstep, List.any_eq_true]
  constructor
  · rintro ⟨p, hp, hm⟩
    refine ⟨p, hp, ?_⟩
    exact or_assoc.mp (by simpa [excludeMatch, Bool.or_eq_true, Bool.and_eq_true] using hm)
  · rintro ⟨p, hp, hm⟩
    refine ⟨p, hp, ?_⟩
    simpa [excludeMatch, Bool.or_eq_true, Bool.and_eq_true] using or_assoc.mpr hm

theorem c2_witness :
    ("dir/b.txt" ∉ filterFiles ["b.txt"] ["dir/b.txt", "dir/c.txt"]) ↔
      ∃ p ∈ ["b.txt"],
        fnmatch (basename "dir/b.txt") p = true ∨ fnmatch "dir/b.txt" p = true ∨
          (strEnds p "/" = true ∧
            strStarts (normpath "dir/b.txt") (normpath p ++ "/") = true) :=
  c2_exclusion_rule ["b.txt"] ["dir/b.txt", "dir/c.txt"] "dir/b.txt" (by decide) (by decide)

/-- C3: when filtering leaves zero files, the run exits non-zero, the output
file is neither created nor modified, and the fatal message is reported. -/
theorem c3_empty_fatal (fs : FS) (out : String) (inputs ex : List String) (u hid : Bool)
    (h : filesToProcess fs hid inputs ex = []) :
    (combineFiles fs out inputs ex u hid).1 = .emptyError ∧
    ((combineFiles fs out inputs ex u hid).1).exitCode = 1 ∧
    ((combineFiles fs out inputs ex u hid).1).outputTouched = false ∧
    emptyMsg ∈ (combineFiles fs out inputs ex u hid).2 := by
  have hfst : combineFiles fs out inputs ex u hid =
      (.emptyError, (discover fs hid inputs).2 ++ [emptyMsg]) := by
    have h2 : filterFiles ex (discover fs hid inputs).1 = [] := h
    simp only [combineFiles, h2, List.isEmpty_nil, if_true]
  rw [hfst]
  refine ⟨rfl, rfl, rfl, ?_⟩
  simp

theorem c3_witness :
    (combineFiles fsNull "out.txt" ["nope"] [] false false).1 = .emptyError ∧
    ((combineFiles fsNull "out.txt" ["nope"] [] false false).1).exitCode = 1 ∧
    ((combineFiles fsNull "out.txt" ["nope"] [] false false).1).outputTouched = false ∧
    emptyMsg ∈ (combineFiles fsNull "out.txt" ["nope"] [] false false).2 :=
  c3_empty_fatal fsNull "out.txt" ["nope"] [] false false (by decide)

/-- C4 counterexample: with include-hidden disabled, walking the input
specification `.h` (itself a hidden directory) still yields `.h/a.txt`,
whose first segment is hidden, and that path appears in the output — the
claim that no hidden-segment path ever appears in the output is false. -/
theorem c4_counterexample :
    hasHiddenSeg ".h/a.txt" = true ∧
    ".h/a.txt" ∈ processedFiles fsHiddenRoot false [".h"] [] ∧
    (combineFiles fsHiddenRoot "out.txt" [".h"] [] false false).1 =
      .success "--- .h/a.txt ---\nA" := by decide

/-- C4 (amended): with include-hidden disabled, every path that reaches the
merge either contains no hidden segment at all (always the case for
glob-discovered paths), or was enumerated by walking a directory input
specification and every segment appended below that specification is
non-hidden — hidden segments can come only from the specification's own
path. -/
theorem c4_amended_hidden (fs : FS) (inputs ex : List String) (f : String)
    (hf : f ∈ processedFiles fs false inputs ex) :
    hasHiddenSeg f = false ∨
      ∃ d ∈ inputs, fs.isdir d = true ∧ ∃ segs : List String,
        f = segs.foldl joinPath d ∧ ∀ s ∈ segs, strStarts s "." = false :=
  candidateFiles_hidden fs inputs f (mem_processed_mem_candidates fs false inputs ex f hf)

theorem c4_witness :
    hasHiddenSeg "proj/a.txt" = false ∨
      ∃ d ∈ ["proj"], fsProj.isdir d = true ∧ ∃ segs : List String,
        "proj/a.txt" = segs.foldl joinPath d ∧ ∀ s ∈ segs, strStarts s "." = false :=
  c4_amended_hidden fsProj ["proj"] [] "proj/a.txt" (by decide)

/-- C5: a per-file read error is caught locally: the header followed by an
inline error marker naming the file and the error appears in the output at
the file's position, the same message is printed, and the run still
succeeds (exit code 0) with the remaining files processed. -/
theorem c5_per_file_error (fs : FS) (out : String) (inputs ex : List String)
    (u hid : Bool) (f e : String)
    (hf : f ∈ processedFiles fs hid inputs ex)
    (he : fs.readFile f = .error e)
    (hopen : fs.openOutputError = none)
    (hclean : CleanWrites fs) :
    ∃ pre post,
      (combineFiles fs out inputs ex u hid).1 =
        .success (pre ++ (headerLine u fs f ++ errMsg f e) ++ post) ∧
      errMsg f e = "\n错误：读取文件 '" ++ f ++ "' 时发生错误: " ++ e ++ "\n" ∧
      errMsg f e ∈ (combineFiles fs out inputs ex u hid).2 ∧
      ((combineFiles fs out inputs ex u hid).1).exitCode = 0 := by
  have hne : (filesToProcess fs hid inputs ex).isEmpty = false := by
    have h1 : f ∈ filesToProcess fs hid inputs ex :=
      (processed_perm fs hid inputs ex).mem_iff.mp hf
    cases hlist : filesToProcess fs hid inputs ex with
    | nil => rw [hlist] at h1; simp at h1
    | cons a rest => rfl
  have hcf := combineFiles_clean fs out inputs ex u hid hne hopen hclean
  obtain ⟨l1, l2, hsplit⟩ := List.append_of_mem hf
  have hblock : fileBlock fs u f = headerLine u fs f ++ errMsg f e := by
    unfold fileBlock; rw [he]
  obtain ⟨pre, post, hsep⟩ := sepJoin_split (l1.map (fileBlock fs u)) (fileBlock fs u f)
    (l2.map (fileBlock fs u))
  refine ⟨pre, post, ?_, rfl, ?_, ?_⟩
  · rw [hcf]
    simp only []
    rw [hsplit, List.map_append, List.map_cons, hsep, hblock]
  · rw [hcf]
    simp only []
    exact List.mem_append.mpr (Or.inr (errMsg_mem_printsFrom fs e _ 0 f hf he))
  · rw [hcf]
    rfl

theorem c5_witness :
    ∃ pre post,
      (combineFiles fsErr "out.txt" ["proj"] [] false false).1 =
        .success (pre ++ (headerLine false fsErr "proj/gone.txt" ++
          errMsg "proj/gone.txt" "deleted") ++ post) ∧
      errMsg "proj/gone.txt" "deleted" =
        "\n错误：读取文件 '" ++ "proj/gone.txt" ++ "' 时发生错误: " ++ "deleted" ++ "\n" ∧
      errMsg "proj/gone.txt" "deleted" ∈
        (combineFiles fsErr "out.txt" ["proj"] [] false false).2 ∧
      ((combineFiles fsErr "out.txt" ["proj"] [] false false).1).exitCode = 0 :=
  c5_per_file_error fsErr "out.txt" ["proj"] [] false false "proj/gone.txt" "deleted"
    (by decide) rfl rfl (fun _ _ => rfl)

/-- C6: when the output file cannot be opened for writing (and the run got
past the empty-set check), the whole run fails with a non-zero exit before
any content is written — the output file is untouched — and the error is
shown to the operator. -/
theorem c6_output_open_error (fs : FS) (out : String) (inputs ex : List String)
    (u hid : Bool) (e : String)
    (hne : (filesToProcess fs hid inputs ex).isEmpty = false)
    (hopen : fs.openOutputError = some e) :
    (combineFiles fs out inputs ex u hid).1 = .openError e ∧
    ((combineFiles fs out inputs ex u hid).1).exitCode = 1 ∧
    ((combineFiles fs out inputs ex u hid).1).outputTouched = false ∧
    outErrMsg out e ∈ (combineFiles fs out inputs ex u hid).2 := by
  have hfst : combineFiles fs out inputs ex u hid =
      (.openError e, (discover fs hid inputs).2 ++ [outErrMsg out e]) := by
    have h2 : (filterFiles ex (discover fs hid inputs).1).isEmpty = false := hne
    simp only [combineFiles, h2, Bool.false_eq_true, if_false, hopen]
  rw [hfst]
  refine ⟨rfl, rfl, rfl, ?_⟩
  simp

theorem c6_witness :
    (combineFiles fsOpenErr "/root/out.txt" ["proj"] [] false false).1 =
      .openError "permission denied" ∧
    ((combineFiles fsOpenErr "/root/out.txt" ["proj"] [] false false).1).exitCode = 1 ∧
    ((combineFiles fsOpenErr "/root/out.txt" ["proj"] [] false false).1).outputTouched
      = false ∧
    outErrMsg "/root/out.txt" "permission denied" ∈
      (combineFiles fsOpenErr "/root/out.txt" ["proj"] [] false false).2 :=
  c6_output_open_error fsOpenErr "/root/out.txt" ["proj"] [] false false
    "permission denied" (by decide) rfl

/-- C7: every run producing output writes, for each included source in
sorted-path order, the single header line `--- <path> ---` followed by that
file's decoded content verbatim (or its inline error marker), with the
blank-line separator `"\n\n"` between consecutive blocks, no separator
before the first block, and no trailing footer. -/
theorem c7_output_format (fs : FS) (out : String) (inputs ex : List String)
    (u hid : Bool)
    (hne : (filesToProcess fs hid inputs ex).isEmpty = false)
    (hopen : fs.openOutputError = none)
    (hclean : CleanWrites fs) :
    (combineFiles fs out inputs ex u hid).1 =
      .success (sepJoin ((processedFiles fs hid inputs ex).map (fileBlock fs u))) ∧
    (∀ f, fileBlock fs u f =
      "--- " ++ (if u then fs.abspath f else f) ++ " ---\n" ++
        (match fs.readFile f with
         | .ok c => c
         | .error e2 => errMsg f e2)) ∧
    sepJoin ([] : List String) = "" ∧
    (∀ b : String, sepJoin [b] = b) ∧
    (∀ (b b2 : String) (bs : List String),
      sepJoin (b :: b2 :: bs) = b ++ "\n\n" ++ sepJoin (b2 :: bs)) := by
  refine ⟨?_, ?_, rfl, ?_, ?_⟩
  · rw [combineFiles_clean fs out inputs ex u hid hne hopen hclean]
  · intro f
    rfl
  · intro b
    simp [sepJoin, tailJoin]
  · intro b b2 bs
    simp only [sepJoin, tailJoin]
    simp [String.append_assoc]

theorem c7_witness :
    (combineFiles fsErr "out.txt" ["proj"] [] false false).1 =
      .success (sepJoin ((processedFiles fsErr false ["proj"] []).map
        (fileBlock fsErr false))) ∧
    fileBlock fsErr false "proj/a.txt" =
      "--- " ++ (if false then fsErr.abspath "proj/a.txt" else "proj/a.txt") ++ " ---\n" ++
        (match fsErr.readFile "proj/a.txt" with
         | .ok c => c
         | .error e2 => errMsg "proj/a.txt" e2) :=
  ⟨(c7_output_format fsErr "out.txt" ["proj"] [] false false (by decide) rfl
      (fun _ _ => rfl)).1,
   (c7_output_format fsErr "out.txt" ["proj"] [] false false (by decide) rfl
      (fun _ _ => rfl)).2.1 "proj/a.txt"⟩

/-- C8: the whole run — outcome, output bytes, and console messages — is a
pure function of the inputs and is unchanged when directory listings and
glob expansions enumerate the same entries in any other order; hence two
runs over an unchanged filesystem produce byte-identical output. -/
theorem c8_enum_order_independent (fs1 fs2 : FS) (h : EnumEquiv fs1 fs2)
    (out : String) (inputs ex : List String) (u hid : Bool) :
    combineFiles fs1 out inputs ex u hid = combineFiles fs2 out inputs ex u hid := by
  have hfiles : (filesToProcess fs1 hid inputs ex).Perm
      (filesToProcess fs2 hid inputs ex) :=
    filesToProcess_perm fs1 fs2 h hid inputs ex
  have hsorted : List.insertionSort StrOrd (filesToProcess fs1 hid inputs ex) =
      List.insertionSort StrOrd (filesToProcess fs2 hid inputs ex) :=
    insertionSort_perm_eq hfiles
  have hwarn : (discover fs1 hid inputs).2 = (discover fs2 hid inputs).2 :=
    discover_snd_eq fs1 fs2 h hid inputs
  have hempty : (filesToProcess fs1 hid inputs ex).isEmpty =
      (filesToProcess fs2 hid inputs ex).isEmpty := by
    have hlen := hfiles.length_eq
    cases h1 : filesToProcess fs1 hid inputs ex <;>
      cases h2 : filesToProcess fs2 hid inputs ex <;> simp_all
  simp only [combineFiles]
  rw [show filterFiles ex (discover fs1 hid inputs).1 =
        filesToProcess fs1 hid inputs ex from rfl,
      show filterFiles ex (discover fs2 hid inputs).1 =
        filesToProcess fs2 hid inputs ex from rfl,
      hwarn, hempty, hsorted, h.open_eq, mergeLoop_congr fs1 fs2 h u]

theorem c8_witness :
    combineFiles fsProj "out.txt" ["proj"] [] false false =
      combineFiles fsProjSwap "out.txt" ["proj"] [] false false :=
  c8_enum_order_independent fsProj fsProjSwap
    { isdir_eq := fun _ => rfl
      listdir_perm := fun p => by
        unfold fsProj fsProjSwap
        dsimp only
        by_cases h1 : (p == "proj") = true
        · rw [if_pos h1, if_pos h1]
          decide
        · rw [if_neg h1, if_neg h1]
      glob_perm := fun _ => List.Perm.refl _
      isfile_eq := fun _ => rfl
      read_eq := fun _ => rfl
      abspath_eq := fun _ => rfl
      open_eq := rfl
      write_eq := fun _ _ => rfl
      depth_eq := rfl }
    "out.txt" ["proj"] [] false false

/-- C9 counterexample: the specification `a[b]` contains a wildcard
metacharacter (`[`) and so, by the claim, should get no warning; but the
script checks only for `*` and `?`, and does warn when `a[b]` matches
nothing. -/
theorem c9_counterexample :
    fsBracket.isdir "a[b]" = false ∧
    (fsBracket.globMatches "a[b]").isEmpty = true ∧
    hasWildcardMeta "a[b]" = true ∧
    (discover fsBracket false ["a[b]"]).2 = [warnMsg "a[b]"] := by decide

/-- C9 (amended): for every input specification that does not name an
existing directory, the non-fatal warning is emitted iff the glob expansion
is empty and the specification contains neither `*` nor `?` (the script does
not treat `[` as a wildcard metacharacter for this check); the specification
only ever appends that one warning to the console. -/
theorem c9_amended_warning (fs : FS) (hid : Bool) (path : String)
    (acc : List String × List String)
    (hnd : fs.isdir path = false) :
    ((discoverStep fs hid acc path).2 ≠ acc.2 ↔
      ((fs.globMatches path).isEmpty = true ∧ strHasChar path '*' = false ∧
        strHasChar path '?' = false)) ∧
    (discoverStep fs hid acc path).2 =
      acc.2 ++
        (if (fs.globMatches path).isEmpty && !strHasChar path '*' &&
            !strHasChar path '?' then [warnMsg path] else []) := by
  have hsnd := discoverStep_snd fs hid acc path
  have hw : warnOf fs path =
      (if (fs.globMatches path).isEmpty && !strHasChar path '*' &&
          !strHasChar path '?' then [warnMsg path] else []) := by
    unfold warnOf
    rw [hnd]
    simp
  rw [hw] at hsnd
  refine ⟨?_, hsnd⟩
  rw [hsnd]
  cases hc : ((fs.globMatches path).isEmpty && !strHasChar path '*' &&
      !strHasChar path '?') with
  | true =>
    have hcomps : (fs.globMatches path).isEmpty = true ∧ strHasChar path '*' = false ∧
        strHasChar path '?' = false := by
      simp only [Bool.and_eq_true, Bool.not_eq_true'] at hc
      exact ⟨hc.1.1, hc.1.2, hc.2⟩
    have hif : (if (true : Bool) = true then [warnMsg path] else ([] : List String)) =
        [warnMsg path] := if_pos rfl
    rw [hif]
    constructor
    · intro _
      exact hcomps
    · intro _ heq
      have hlen := congrArg List.length heq
      simp at hlen
  | false =>
    have hif : (if (false : Bool) = true then [warnMsg path] else ([] : List String)) =
        [] := by simp
    rw [hif, List.append_nil]
    constructor
    · intro hne2
      exact absurd rfl hne2
    · rintro ⟨h1, h2, h3⟩
      rw [h1, h2, h3] at hc
      simp at hc

theorem c9_witness :
    ((discoverStep fsNull false (([], []) : List String × List String) "nope").2 ≠
        ((([], []) : List String × List String)).2 ↔
      ((fsNull.globMatches "nope").isEmpty = true ∧ strHasChar "nope" '*' = false ∧
        strHasChar "nope" '?' = false)) ∧
    (discoverStep fsNull false (([], []) : List String × List String) "nope").2 =
      ((([], []) : List String × List String)).2 ++
        (if (fsNull.globMatches "nope").isEmpty && !strHasChar "nope" '*' &&
            !strHasChar "nope" '?' then [warnMsg "nope"] else []) :=
  c9_amended_warning fsNull false "nope" (([], []) : List String × List String) rfl

theorem filesToProcess_nonempty_of_processed {fs : FS} {hid : Bool}
    {inputs ex l1 l2 : List String} {f : String}
    (hsplit : processedFiles fs hid inputs ex = l1 ++ f :: l2) :
    (filesToProcess fs hid inputs ex).isEmpty = false := by
  have hmem : f ∈ processedFiles fs hid inputs ex := by rw [hsplit]; simp
  have h1 : f ∈ filesToProcess fs hid inputs ex :=
    (processed_perm fs hid inputs ex).mem_iff.mp hmem
  cases hlist : filesToProcess fs hid inputs ex with
  | nil => rw [hlist] at h1; simp at h1
  | cons a rest => rfl

/-- A run that reaches the merge with fault-free separator/header/marker
writes succeeds with the per-index rendering (content writes may fail and
become inline markers). -/
theorem combineFiles_scaffold (fs : FS) (out : String) (inputs ex : List String)
    (u hid : Bool)
    (hne : (filesToProcess fs hid inputs ex).isEmpty = false)
    (hopen : fs.openOutputError = none)
    (hsc : CleanScaffold fs) :
    combineFiles fs out inputs ex u hid =
      (.success (renderFrom fs u (processedFiles fs hid inputs ex) 0),
       (discover fs hid inputs).2 ++ printsFrom fs (processedFiles fs hid inputs ex) 0) := by
  simp only [combineFiles]
  rw [show filterFiles ex (discover fs hid inputs).1 =
        filesToProcess fs hid inputs ex from rfl, hne]
  simp only [Bool.false_eq_true, if_false, hopen]
  rw [mergeLoop_clean fs u hsc (List.insertionSort StrOrd
    (filesToProcess fs hid inputs ex)) 0 "" []]
  simp only []
  rw [show List.insertionSort StrOrd (filesToProcess fs hid inputs ex) =
        processedFiles fs hid inputs ex from rfl]
  simp

/-- A run that reaches the merge and whose merge loop aborts ends as
`writeAbort` with exit code 1 and the outer error message printed. -/
theorem combineFiles_abort (fs : FS) (out : String) (inputs ex : List String)
    (u hid : Bool) (w e : String) (console : List String)
    (hne : (filesToProcess fs hid inputs ex).isEmpty = false)
    (hopen : fs.openOutputError = none)
    (hml : mergeLoop fs u (processedFiles fs hid inputs ex) 0 "" [] =
      .abort w e console) :
    combineFiles fs out inputs ex u hid =
      (.writeAbort w e, (discover fs hid inputs).2 ++ console ++ [outErrMsg out e]) := by
  simp only [combineFiles]
  rw [show filterFiles ex (discover fs hid inputs).1 =
        filesToProcess fs hid inputs ex from rfl, hne]
  simp only [Bool.false_eq_true, if_false, hopen]
  rw [show List.insertionSort StrOrd (filesToProcess fs hid inputs ex) =
        processedFiles fs hid inputs ex from rfl, hml]

/-- C10 counterexample: opening the output and the separator, header, and
content writes all succeed, and the per-file handler catches the read error;
but the write of the inline error marker itself — raised inside the per-file
handler, not while opening the output or writing a header or separator —
escapes to the outer handler and aborts the run with a non-zero exit.  So
"only errors raised outside the per-file copy (opening the output, or
writing a header or separator) abort the run" is false. -/
theorem c10_counterexample :
    fsMk.openOutputError = none ∧
    fsMk.writeError WKind.sep 0 = none ∧
    fsMk.writeError WKind.header 0 = none ∧
    fsMk.writeError WKind.content 0 = none ∧
    fsMk.readFile "f.txt" = .error "boom" ∧
    (combineFiles fsMk "out.txt" ["f.txt"] [] false false).1 =
      .writeAbort "--- f.txt ---\n" "disk full" ∧
    ((combineFiles fsMk "out.txt" ["f.txt"] [] false false).1).exitCode = 1 :=
  ⟨rfl, rfl, rfl, rfl, rfl, by decide, by decide⟩

/-- C10 (amended): an error raised while writing a source file's decoded
content into the already-open output is caught by the same per-file handler
as read errors: the inline marker becomes that file's body, the message is
printed, the remaining files are still processed, and the run exits 0.
Errors raised by the scaffolding writes abort the run with a non-zero exit:
the header write, the inline-marker write, and the separator write (and
opening the output, per C6). -/
theorem c10_amended_write_errors :
    (∀ (fs : FS) (out : String) (inputs ex : List String) (u hid : Bool)
        (l1 l2 : List String) (f c e : String),
      processedFiles fs hid inputs ex = l1 ++ f :: l2 →
      fs.readFile f = .ok c →
      fs.writeError .content l1.length = some e →
      fs.openOutputError = none →
      CleanScaffold fs →
      (combineFiles fs out inputs ex u hid).1 =
        .success (renderFrom fs u (processedFiles fs hid inputs ex) 0) ∧
      fileBlockAt fs u f l1.length = headerLine u fs f ++ errMsg f e ∧
      errMsg f e ∈ (combineFiles fs out inputs ex u hid).2 ∧
      ((combineFiles fs out inputs ex u hid).1).exitCode = 0) ∧
    (∀ (fs : FS) (out : String) (inputs ex : List String) (u hid : Bool)
        (l1 l2 : List String) (f e : String),
      processedFiles fs hid inputs ex = l1 ++ f :: l2 →
      (∀ j, j < l1.length → fs.writeError .sep j = none ∧
        fs.writeError .header j = none ∧ fs.writeError .marker j = none) →
      fs.writeError .sep l1.length = none →
      fs.writeError .header l1.length = some e →
      fs.openOutputError = none →
      (combineFiles fs out inputs ex u hid).1 =
        .writeAbort (renderFrom fs u l1 0 ++ (if 0 < l1.length then "\n\n" else "")) e ∧
      ((combineFiles fs out inputs ex u hid).1).exitCode = 1) ∧
    (∀ (fs : FS) (out : String) (inputs ex : List String) (u hid : Bool)
        (l1 l2 : List String) (f e e2 : String),
      processedFiles fs hid inputs ex = l1 ++ f :: l2 →
      (∀ j, j < l1.length → fs.writeError .sep j = none ∧
        fs.writeError .header j = none ∧ fs.writeError .marker j = none) →
      fs.writeError .sep l1.length = none →
      fs.writeError .header l1.length = none →
      fs.readFile f = .error e →
      fs.writeError .marker l1.length = some e2 →
      fs.openOutputError = none →
      (combineFiles fs out inputs ex u hid).1 =
        .writeAbort (renderFrom fs u l1 0 ++
          ((if 0 < l1.length then "\n\n" else "") ++ headerLine u fs f)) e2 ∧
      ((combineFiles fs out inputs ex u hid).1).exitCode = 1) ∧
    (∀ (fs : FS) (out : String) (inputs ex : List String) (u hid : Bool)
        (l1 l2 : List String) (f e : String),
      processedFiles fs hid inputs ex = l1 ++ f :: l2 →
      (∀ j, j < l1.length → fs.writeError .sep j = none ∧
        fs.writeError .header j = none ∧ fs.writeError .marker j = none) →
      0 < l1.length →
      fs.writeError .sep l1.length = some e →
      fs.openOutputError = none →
      (combineFiles fs out inputs ex u hid).1 =
        .writeAbort (renderFrom fs u l1 0) e ∧
      ((combineFiles fs out inputs ex u hid).1).exitCode = 1) := by
  refine ⟨?_, ?_, ?_, ?_⟩
  · intro fs out inputs ex u hid l1 l2 f c e hsplit hr hcw hopen hsc
    have hne := filesToProcess_nonempty_of_processed hsplit
    have hcf := combineFiles_scaffold fs out inputs ex u hid hne hopen hsc
    refine ⟨by rw [hcf], ?_, ?_, by rw [hcf]; rfl⟩
    · unfold fileBlockAt fileBody
      rw [hr]
      dsimp only
      rw [hcw]
    · rw [hcf]
      simp only []
      apply List.mem_append.mpr
      right
      rw [hsplit, printsFrom_append]
      apply List.mem_append.mpr
      right
      simp only [printsFrom]
      apply List.mem_append.mpr
      left
      unfold filePrint
      rw [hr]
      dsimp only
      rw [Nat.zero_add, hcw]
      simp
  · intro fs out inputs ex u hid l1 l2 f e hsplit hbelow hsep hhead hopen
    have hne := filesToProcess_nonempty_of_processed hsplit
    have hml : mergeLoop fs u (processedFiles fs hid inputs ex) 0 "" [] =
        .abort (renderFrom fs u l1 0 ++ (if 0 < l1.length then "\n\n" else "")) e
          (printsFrom fs l1 0) := by
      rw [hsplit, mergeLoop_append,
        mergeLoop_clean_range fs u l1 0 "" [] (fun j hj1 hj2 => hbelow j (by omega))]
      dsimp only
      simp only [mergeLoop, String.empty_append, List.nil_append, Nat.zero_add]
      rw [mergeFile_headerFault fs u f l1.length _ _ e hsep hhead]
    have hrun := combineFiles_abort fs out inputs ex u hid _ e _ hne hopen hml
    exact ⟨by rw [hrun], by rw [hrun]; rfl⟩
  · intro fs out inputs ex u hid l1 l2 f e e2 hsplit hbelow hsep hhead hr hmk hopen
    have hne := filesToProcess_nonempty_of_processed hsplit
    have hml : mergeLoop fs u (processedFiles fs hid inputs ex) 0 "" [] =
        .abort (renderFrom fs u l1 0 ++
            ((if 0 < l1.length then "\n\n" else "") ++ headerLine u fs f)) e2
          (printsFrom fs l1 0 ++ [errMsg f e]) := by
      rw [hsplit, mergeLoop_append,
        mergeLoop_clean_range fs u l1 0 "" [] (fun j hj1 hj2 => hbelow j (by omega))]
      dsimp only
      simp only [mergeLoop, String.empty_append, List.nil_append, Nat.zero_add]
      rw [mergeFile_markerFault fs u f l1.length _ _ e e2 hsep hhead hr hmk]
    have hrun := combineFiles_abort fs out inputs ex u hid _ e2 _ hne hopen hml
    exact ⟨by rw [hrun], by rw [hrun]; rfl⟩
  · intro fs out inputs ex u hid l1 l2 f e hsplit hbelow hpos hsep hopen
    have hne := filesToProcess_nonempty_of_processed hsplit
    have hml : mergeLoop fs u (processedFiles fs hid inputs ex) 0 "" [] =
        .abort (renderFrom fs u l1 0) e (printsFrom fs l1 0) := by
      rw [hsplit, mergeLoop_append,
        mergeLoop_clean_range fs u l1 0 "" [] (fun j hj1 hj2 => hbelow j (by omega))]
      dsimp only
      simp only [mergeLoop, String.empty_append, List.nil_append, Nat.zero_add]
      rw [mergeFile_sepFault fs u f l1.length _ _ e hpos hsep]
    have hrun := combineFiles_abort fs out inputs ex u hid _ e _ hne hopen hml
    exact ⟨by rw [hrun], by rw [hrun]; rfl⟩

theorem c10_witness :
    (combineFiles fsCW "out.txt" ["f.txt"] [] false false).1 =
      .success (renderFrom fsCW false (processedFiles fsCW false ["f.txt"] []) 0) ∧
    fileBlockAt fsCW false "f.txt" 0 =
      headerLine false fsCW "f.txt" ++ errMsg "f.txt" "disk full" ∧
    errMsg "f.txt" "disk full" ∈ (combineFiles fsCW "out.txt" ["f.txt"] [] false false).2 ∧
    ((combineFiles fsCW "out.txt" ["f.txt"] [] false false).1).exitCode = 0 :=
  c10_amended_write_errors.1 fsCW "out.txt" ["f.txt"] [] false false [] [] "f.txt" "A"
    "disk full" (by decide) rfl rfl rfl (fun _ => ⟨rfl, rfl, rfl⟩)

end CombineFiles
